import Mathlib

/-!
Shallow embedding of `tldr_scraper.py` (TDLR project scraper).

The repository has two components:
* `TDLRScraper` — paginated fetch loop (`scrape_all_projects`) feeding an
  SQLite upsert (`save_to_database`, `INSERT OR REPLACE` keyed on the
  `project_id` column, which is declared `UNIQUE`), over a table created by
  `init_database` (which first drops any existing table).
* `ProjectSearcher.search_projects` — a disjunction of SQL `LIKE` conditions
  (exact pattern and `%term%` pattern per field) over three default text
  columns, ordered by `date_scraped DESC`, `LIMIT 100`.

Modelling conventions:
* JSON record fields that may be absent or `null` become `Option` values;
  Python truthiness of a string field (`if not project_id`) treats both
  `None` and the empty string as falsy.
* `uuid.uuid5(uuid.NAMESPACE_DNS, name)` is a pure hash of `name`; it is
  modelled by an abstract injective-looking tag function `uuid5_dns` (only
  its determinism in `name` is relevant to the pipeline).
* `uuid.uuid4()` draws fresh randomness; the model threads a stream
  `rng : Nat → String` together with a counter, one draw per fallback.
* SQLite `CURRENT_TIMESTAMP` is modelled by a logical clock stored in the
  database state, incremented at each executed `INSERT`; `AUTOINCREMENT`
  rowids are modelled by a `nextRowid` counter starting at 1.
* The `REAL` column `estimated_cost` is never used arithmetically by the
  program (pure pass-through), so its payload is modelled as `Option Int`.
* `time.sleep(delay)` is modelled by accumulating the slept duration in the
  loop state; network responses are supplied by an explicit API oracle.
-/

/-- One raw project object as returned in the JSON `data` array, with the
agency field names of the source (`project.get('ProjectId')`, ...). -/
structure RawProject where
  projectId : Option String := none
  projectNumber : Option String := none
  projectName : Option String := none
  projectCreatedOn : Option String := none
  projectStatus : Option Int := none
  facilityName : Option String := none
  city : Option Int := none
  county : Option Int := none
  typeOfWork : Option Int := none
  estimatedCost : Option Int := none
  dataVersionId : Option Int := none
  estimatedStartDate : Option String := none
  estimatedEndDate : Option String := none
deriving DecidableEq, Repr

/-- One row of the `projects` table (schema from `init_database`). -/
structure Row where
  rowid : Nat
  project_id : String
  project_number : Option String
  project_name : Option String
  project_created_on : Option String
  project_status : Option Int
  facility_name : Option String
  city : Option Int
  county : Option Int
  type_of_work : Option Int
  estimated_cost : Option Int
  data_version_id : Option Int
  estimated_start_date : Option String
  estimated_end_date : Option String
  date_scraped : Nat
deriving DecidableEq, Repr

/-- State of the SQLite database file: the `projects` table rows in physical
insertion order, the `AUTOINCREMENT` counter, and the logical clock used for
the `date_scraped DEFAULT CURRENT_TIMESTAMP` column. -/
structure DB where
  rows : List Row
  nextRowid : Nat
  clock : Nat
deriving DecidableEq, Repr

/-- Python truthiness of an optional string (`if not project_id`): `None`
and the empty string are falsy. -/
def pyTruthy : Option String → Bool
  | none => false
  | some s => !s.isEmpty

/-- Models Python `str(uuid.uuid5(uuid.NAMESPACE_DNS, name))`: a pure,
deterministic function of `name` (a SHA-1-based hash in CPython; only the
fact that it depends on `name` alone matters to any claim). -/
def uuid5_dns (name : String) : String := "uuid5:dns:" ++ name

namespace TDLRScraper

/-- `init_database`: drops any pre-existing `projects` table and creates a
fresh empty one (`DROP TABLE IF EXISTS` followed by `CREATE TABLE`).
SQLite assigns the first `AUTOINCREMENT` rowid as 1. -/
def init_database : DB := { rows := [], nextRowid := 1, clock := 0 }

/-- Identifier derivation inside `save_to_database`: use the source
`ProjectId` if truthy, else `uuid5` of the `ProjectNumber` if truthy, else
one draw from the random stream (`uuid.uuid4()`).  Returns the identifier
and the updated random counter. -/
def derivePid (p : RawProject) (rng : Nat → String) (rc : Nat) : String × Nat :=
  if pyTruthy p.projectId then (p.projectId.getD "", rc)
  else if pyTruthy p.projectNumber then (uuid5_dns (p.projectNumber.getD ""), rc)
  else (rng rc, rc + 1)

/-- The row written by one `INSERT OR REPLACE` statement executed against
`db`: fresh autoincrement rowid, `date_scraped` defaulted to the current
(logical) timestamp, and the thirteen payload columns from the record. -/
def mkRow (db : DB) (pid : String) (p : RawProject) : Row :=
  { rowid := db.nextRowid
    project_id := pid
    project_number := p.projectNumber
    project_name := p.projectName
    project_created_on := p.projectCreatedOn
    project_status := p.projectStatus
    facility_name := p.facilityName
    city := p.city
    county := p.county
    type_of_work := p.typeOfWork
    estimated_cost := p.estimatedCost
    data_version_id := p.dataVersionId
    estimated_start_date := p.estimatedStartDate
    estimated_end_date := p.estimatedEndDate
    date_scraped := db.clock }

/-- SQLite `INSERT OR REPLACE` on the `UNIQUE project_id` column: any row
conflicting on `project_id` is deleted and the new row is inserted (with a
fresh rowid and a fresh timestamp). -/
def insertOrReplace (db : DB) (pid : String) (p : RawProject) : DB :=
  { rows := db.rows.filter (fun r => r.project_id != pid) ++ [mkRow db pid p]
    nextRowid := db.nextRowid + 1
    clock := db.clock + 1 }

/-- Result of `save_to_database`: final database state, the returned
`saved_count`, and the advanced random counter. -/
structure SaveResult where
  db : DB
  saved : Nat
  rc : Nat
deriving DecidableEq, Repr

/-- `save_to_database`: derive an identifier for each record in order and
execute one `INSERT OR REPLACE` per record.  In the model no `sqlite3.Error`
can occur, so every record counts towards `saved_count`. -/
def save_to_database (db : DB) (ps : List RawProject) (rng : Nat → String)
    (rc : Nat) : SaveResult :=
  match ps with
  | [] => { db := db, saved := 0, rc := rc }
  | p :: rest =>
    let pr := derivePid p rng rc
    let res := save_to_database (insertOrReplace db pr.1 p) rest rng pr.2
    { db := res.db, saved := res.saved + 1, rc := res.rc }

/-- The `project_id` column of the store, in physical row order. -/
def pids (db : DB) : List String := db.rows.map Row.project_id

theorem save_to_database_nil (db : DB) (rng : Nat → String) (rc : Nat) :
    save_to_database db [] rng rc = { db := db, saved := 0, rc := rc } := rfl

theorem save_to_database_cons (db : DB) (p : RawProject) (rest : List RawProject)
    (rng : Nat → String) (rc : Nat) :
    save_to_database db (p :: rest) rng rc =
      { db := (save_to_database (insertOrReplace db (derivePid p rng rc).1 p)
                rest rng (derivePid p rng rc).2).db
        saved := (save_to_database (insertOrReplace db (derivePid p rng rc).1 p)
                rest rng (derivePid p rng rc).2).saved + 1
        rc := (save_to_database (insertOrReplace db (derivePid p rng rc).1 p)
                rest rng (derivePid p rng rc).2).rc } := rfl

/-- The reported `saved_count` is the batch length (no write errors occur in
the model). -/
theorem save_to_database_saved (ps : List RawProject) :
    ∀ (db : DB) (rng : Nat → String) (rc : Nat),
      (save_to_database db ps rng rc).saved = ps.length := by
  induction ps with
  | nil => intro db rng rc; rfl
  | cons p rest ih =>
    intro db rng rc
    rw [save_to_database_cons]
    simp [ih]

/-- Saving a concatenated batch equals saving the two batches in sequence. -/
theorem save_to_database_append (xs ys : List RawProject) :
    ∀ (db : DB) (rng : Nat → String) (rc : Nat),
      save_to_database db (xs ++ ys) rng rc =
        { db := (save_to_database (save_to_database db xs rng rc).db ys rng
                  (save_to_database db xs rng rc).rc).db
          saved := xs.length + (save_to_database (save_to_database db xs rng rc).db
                  ys rng (save_to_database db xs rng rc).rc).saved
          rc := (save_to_database (save_to_database db xs rng rc).db ys rng
                  (save_to_database db xs rng rc).rc).rc } := by
  induction xs with
  | nil => intro db rng rc; simp [save_to_database_nil]
  | cons p rest ih =>
    intro db rng rc
    rw [List.cons_append, save_to_database_cons, save_to_database_cons, ih]
    simp [Nat.add_assoc, Nat.add_comm 1]

/-- Outcome of one HTTP POST to the search endpoint, as the scraper code
distinguishes them: a status-200 response whose JSON body parsed (carrying
`recordsTotal` and the `data` array), a response with a non-200 status, or a
raised exception (transport error, timeout, or JSON parse failure). -/
inductive Resp
  | ok (recordsTotal : Nat) (data : List RawProject)
  | httpErr (status : Nat)
  | exn
deriving DecidableEq, Repr

/-- Oracle for the remote API: the response to the initial count probe
(`start 0, length 1`), and the response to each paging request as a function
of the request index, the `start` offset, and the requested `length`. -/
structure Api where
  probe : Resp
  page : Nat → Nat → Nat → Resp

/-- Arguments of `scrape_all_projects`.  `batch_size` is a page length
(modelled as `Nat`), `delay` the inter-page sleep, and `max_records` the
optional limit (`None` or an `int`, so modelled as `Option Int` to keep
Python truthiness: `if max_records:` is false for both `None` and `0`). -/
structure ScrapeCfg where
  batchSize : Nat
  delay : Nat
  maxRecords : Option Int
deriving DecidableEq, Repr

/-- Python truthiness of the optional integer `max_records`. -/
def pyTruthyInt : Option Int → Bool
  | none => false
  | some k => k != 0

/-- State carried across iterations of the `while True` loop of
`scrape_all_projects`: `total_saved`, `start`, the database, the random-uuid
counter, the number of paging requests issued so far (the count probe is not
included), and the total time slept. -/
structure LoopState where
  totalSaved : Nat
  start : Nat
  db : DB
  rc : Nat
  requests : Nat
  slept : Nat
deriving DecidableEq, Repr

/-- The `current_batch_size` computed at the top of each iteration:
`min(batch_size, 15)`, shrunk to `max_records - total_saved` when a truthy
maximum would otherwise be exceeded. -/
def currentBatchSize (cfg : ScrapeCfg) (totalSaved : Nat) : Int :=
  if pyTruthyInt cfg.maxRecords ∧
      (totalSaved : Int) + (min cfg.batchSize 15 : Nat) > cfg.maxRecords.getD 0 then
    cfg.maxRecords.getD 0 - (totalSaved : Int)
  else (min cfg.batchSize 15 : Nat)

/-- One iteration of the `while True` loop.  Returns the new state and
whether the loop continues (`false` = one of the `break` statements ran).
The `KeyboardInterrupt` branch (external cancellation) is not modelled. -/
def scrapeStep (api : Nat → Nat → Nat → Resp) (rng : Nat → String)
    (cfg : ScrapeCfg) (st : LoopState) : LoopState × Bool :=
  -- top-of-loop limit check
  if pyTruthyInt cfg.maxRecords ∧ (st.totalSaved : Int) ≥ cfg.maxRecords.getD 0 then
    (st, false)
  -- `if current_batch_size <= 0: break` inside the shrink branch
  else if (pyTruthyInt cfg.maxRecords ∧
      (st.totalSaved : Int) + (min cfg.batchSize 15 : Nat) > cfg.maxRecords.getD 0) ∧
      currentBatchSize cfg st.totalSaved ≤ 0 then
    (st, false)
  else
    let cbs := (currentBatchSize cfg st.totalSaved).toNat
    match api st.requests st.start cbs with
    | .ok _ projects =>
      if projects.isEmpty then
        ({ st with requests := st.requests + 1 }, false)
      else
        let res := save_to_database st.db projects rng st.rc
        let total := st.totalSaved + res.saved
        if projects.length < cbs then
          -- page shorter than requested: end of data
          ({ st with totalSaved := total, db := res.db, rc := res.rc
                     requests := st.requests + 1 }, false)
        else
          let start := st.start + projects.length
          if pyTruthyInt cfg.maxRecords ∧ (total : Int) ≥ cfg.maxRecords.getD 0 then
            ({ st with totalSaved := total, start := start, db := res.db
                       rc := res.rc, requests := st.requests + 1 }, false)
          else
            ({ st with totalSaved := total, start := start, db := res.db
                       rc := res.rc, requests := st.requests + 1
                       slept := st.slept + cfg.delay }, true)
    | .httpErr _ =>
      -- non-200 status on a paging request: break out of the loop
      ({ st with requests := st.requests + 1 }, false)
    | .exn =>
      -- exception: advance by the fixed default page size 15 and continue
      ({ st with start := st.start + 15, requests := st.requests + 1
                 slept := st.slept + cfg.delay }, true)

/-- Fuel-indexed iteration of `scrapeStep`; `none` means the loop did not
terminate within `fuel` iterations. -/
def scrapeLoop (api : Nat → Nat → Nat → Resp) (rng : Nat → String)
    (cfg : ScrapeCfg) : Nat → LoopState → Option LoopState
  | 0, _ => none
  | fuel + 1, st =>
    match scrapeStep api rng cfg st with
    | (st2, false) => some st2
    | (st2, true) => scrapeLoop api rng cfg fuel st2

/-- `scrape_all_projects`: issue the count probe; any non-200 status or
exception there returns 0 saved without entering the loop; otherwise run
the pagination loop from `start = 0`, `total_saved = 0`. -/
def scrape_all_projects (api : Api) (rng : Nat → String) (cfg : ScrapeCfg)
    (db : DB) (rc : Nat) (fuel : Nat) : Option LoopState :=
  match api.probe with
  | .ok _ _ => scrapeLoop api.page rng cfg fuel
      { totalSaved := 0, start := 0, db := db, rc := rc, requests := 0, slept := 0 }
  | .httpErr _ => some
      { totalSaved := 0, start := 0, db := db, rc := rc, requests := 0, slept := 0 }
  | .exn => some
      { totalSaved := 0, start := 0, db := db, rc := rc, requests := 0, slept := 0 }

/-- A well-behaved simulated API over a fixed list of records: every request
succeeds with status 200, `recordsTotal` reports the dataset size, and a
paging request returns the records in window `[start, start+length)`. -/
def honestApi (records : List RawProject) : Api :=
  { probe := .ok records.length (records.take 1)
    page := fun _ start len => .ok records.length ((records.drop start).take len) }

/-- One CLI `--scrape` run of the Fetcher: construct the scraper (whose
`__init__` calls `init_database`, dropping and recreating the table) and run
`scrape_all_projects` against the simulated API.  Returns the final database
and random counter. -/
def runFetcher (records : List RawProject) (rng : Nat → String)
    (cfg : ScrapeCfg) (rc : Nat) (fuel : Nat) : Option (DB × Nat) :=
  (scrape_all_projects (honestApi records) rng cfg init_database rc fuel).map
    (fun st => (st.db, st.rc))

/-! Behaviour of one loop iteration against the honest API when no maximum
is configured, split by how many records remain at offset `start`. -/

theorem currentBatchSize_none (P delay : Nat) (t : Nat) :
    currentBatchSize ⟨P, delay, none⟩ t = ((min P 15 : Nat) : Int) := by
  simp [currentBatchSize, pyTruthyInt]

theorem scrapeStep_honest_end (records : List RawProject) (rng : Nat → String)
    (P delay t s : Nat) (db : DB) (rc req sl : Nat)
    (h : records.length ≤ s) :
    scrapeStep (honestApi records).page rng ⟨P, delay, none⟩
        ⟨t, s, db, rc, req, sl⟩ =
      (⟨t, s, db, rc, req + 1, sl⟩, false) := by
  have hdrop : records.drop s = [] := List.drop_eq_nil_of_le h
  unfold scrapeStep
  simp [pyTruthyInt, honestApi, hdrop]

theorem scrapeStep_honest_lastShort (records : List RawProject) (rng : Nat → String)
    (P delay t s : Nat) (db : DB) (rc req sl : Nat)
    (hP15 : P ≤ 15) (hs : s < records.length) (hlt : records.length - s < P) :
    scrapeStep (honestApi records).page rng ⟨P, delay, none⟩
        ⟨t, s, db, rc, req, sl⟩ =
      (⟨t + (records.length - s), s,
        (save_to_database db (records.drop s) rng rc).db,
        (save_to_database db (records.drop s) rng rc).rc, req + 1, sl⟩, false) := by
  have hmin : min P 15 = P := Nat.min_eq_left hP15
  have hlen : (records.drop s).length = records.length - s := List.length_drop ..
  have htake : (records.drop s).take P = records.drop s := by
    apply List.take_of_length_le; omega
  have hne : records.drop s ≠ [] := by
    intro hcon
    rw [hcon] at hlen
    simp at hlen
    omega
  unfold scrapeStep
  simp [pyTruthyInt, honestApi, currentBatchSize, hmin, htake, hne, hlen, hlt,
    save_to_database_saved]

theorem scrapeStep_honest_full (records : List RawProject) (rng : Nat → String)
    (P delay t s : Nat) (db : DB) (rc req sl : Nat)
    (hP1 : 1 ≤ P) (hP15 : P ≤ 15) (hle : P ≤ records.length - s) :
    scrapeStep (honestApi records).page rng ⟨P, delay, none⟩
        ⟨t, s, db, rc, req, sl⟩ =
      (⟨t + P, s + P,
        (save_to_database db ((records.drop s).take P) rng rc).db,
        (save_to_database db ((records.drop s).take P) rng rc).rc,
        req + 1, sl + delay⟩, true) := by
  have hmin : min P 15 = P := Nat.min_eq_left hP15
  have hlen : ((records.drop s).take P).length = P := by
    rw [List.length_take, List.length_drop]; omega
  have hne : (records.drop s).take P ≠ [] := by
    intro hcon
    rw [hcon] at hlen
    simp at hlen
    omega
  unfold scrapeStep
  simp [pyTruthyInt, honestApi, currentBatchSize, hmin, hne, hlen,
    save_to_database_saved]

theorem scrapeLoop_succ (api : Nat → Nat → Nat → Resp) (rng : Nat → String)
    (cfg : ScrapeCfg) (fuel : Nat) (st : LoopState) :
    scrapeLoop api rng cfg (fuel + 1) st =
      match scrapeStep api rng cfg st with
      | (st2, false) => some st2
      | (st2, true) => scrapeLoop api rng cfg fuel st2 := rfl

theorem scrapeLoop_break (api : Nat → Nat → Nat → Resp) (rng : Nat → String)
    (cfg : ScrapeCfg) (fuel : Nat) (st st2 : LoopState)
    (h : scrapeStep api rng cfg st = (st2, false)) :
    scrapeLoop api rng cfg (fuel + 1) st = some st2 := by
  rw [scrapeLoop_succ, h]

theorem scrapeLoop_cont (api : Nat → Nat → Nat → Resp) (rng : Nat → String)
    (cfg : ScrapeCfg) (fuel : Nat) (st st2 : LoopState)
    (h : scrapeStep api rng cfg st = (st2, true)) :
    scrapeLoop api rng cfg (fuel + 1) st = scrapeLoop api rng cfg fuel st2 := by
  rw [scrapeLoop_succ, h]

/-- Full behaviour of the pagination loop against the honest API when no
maximum is configured, starting from a state reachable at offset `s` with
`total_saved = s`: the loop terminates, saves the whole suffix, and issues
`(N - s) / P + 1` further paging requests. -/
theorem scrapeLoop_honest (records : List RawProject) (rng : Nat → String)
    (P delay : Nat) (hP1 : 1 ≤ P) (hP15 : P ≤ 15) :
    ∀ (fuel s : Nat) (db : DB) (rc req sl : Nat), s ≤ records.length →
      (records.length - s) / P < fuel →
      scrapeLoop (honestApi records).page rng ⟨P, delay, none⟩ fuel
          ⟨s, s, db, rc, req, sl⟩ =
        some ⟨records.length, s + P * ((records.length - s) / P),
          (save_to_database db (records.drop s) rng rc).db,
          (save_to_database db (records.drop s) rng rc).rc,
          req + ((records.length - s) / P + 1),
          sl + delay * ((records.length - s) / P)⟩ := by
  intro fuel
  induction fuel with
  | zero => intro s db rc req sl hs hf; exact absurd hf (Nat.not_lt_zero _)
  | succ fuel ih =>
    intro s db rc req sl hs hf
    rcases Nat.lt_or_ge s records.length with hlt | hge
    · rcases Nat.lt_or_ge (records.length - s) P with hrem | hrem
      · -- final, partial page
        have hdiv : (records.length - s) / P = 0 := Nat.div_eq_of_lt hrem
        rw [scrapeLoop_break _ _ _ _ _ _
          (scrapeStep_honest_lastShort records rng P delay s s db rc req sl hP15 hlt hrem),
          hdiv, Nat.add_sub_cancel' (le_of_lt hlt)]
        simp
      · -- full page, loop continues
        have hsplit : (records.drop s).take P ++ records.drop (s + P) = records.drop s := by
          have h1 := List.take_append_drop P (records.drop s)
          rwa [List.drop_drop] at h1
        have hdiv : (records.length - s) / P = (records.length - (s + P)) / P + 1 := by
          have h2 : records.length - s = (records.length - (s + P)) + P := by omega
          rw [h2, Nat.add_div_right _ (by omega : 0 < P)]
        rw [scrapeLoop_cont _ _ _ _ _ _
          (scrapeStep_honest_full records rng P delay s s db rc req sl hP1 hP15 hrem),
          ih (s + P) (save_to_database db ((records.drop s).take P) rng rc).db
            (save_to_database db ((records.drop s).take P) rng rc).rc
            (req + 1) (sl + delay) (by omega) (by omega),
          hdiv]
        have hsave := save_to_database_append ((records.drop s).take P)
          (records.drop (s + P)) db rng rc
        rw [hsplit] at hsave
        simp only [hsave, Option.some.injEq, LoopState.mk.injEq]
        refine ⟨trivial, by ring, trivial, trivial, by ring, by ring⟩
    · -- no records remain: the next page is empty
      have hs' : s = records.length := by omega
      subst hs'
      have hdrop : records.drop records.length = [] := List.drop_eq_nil_of_le (le_refl _)
      rw [scrapeLoop_break _ _ _ _ _ _
        (scrapeStep_honest_end records rng P delay records.length records.length db rc
          req sl (le_refl _))]
      simp [hdrop, save_to_database_nil]

/-! Behaviour of one loop iteration against the honest API when a positive
maximum `K` is configured, for states with `total_saved = start = s < K`. -/

theorem scrapeStep_honest_max_full (records : List RawProject) (rng : Nat → String)
    (P delay K s : Nat) (db : DB) (rc req sl : Nat)
    (hP1 : 1 ≤ P) (hP15 : P ≤ 15) (hsP : s + P < K) (hKN : K ≤ records.length) :
    scrapeStep (honestApi records).page rng ⟨P, delay, some (K : Int)⟩
        ⟨s, s, db, rc, req, sl⟩ =
      (⟨s + P, s + P,
        (save_to_database db ((records.drop s).take P) rng rc).db,
        (save_to_database db ((records.drop s).take P) rng rc).rc,
        req + 1, sl + delay⟩, true) := by
  have hmin : min P 15 = P := Nat.min_eq_left hP15
  have hA : ¬(K ≤ s) := by omega
  have hB : ¬((K : Int) < (s : Int) + (P : Int)) := by omega
  have hC : ¬((P : Int) ≤ 0) := by omega
  have hD : ¬(records.length ≤ s) := by omega
  have hE : ¬(((records.length - s : Nat) : Int) < (P : Int)) := by omega
  have hF : min P (records.length - s) = P := Nat.min_eq_left (by omega)
  have hS : ((P : Int) ⊔ 0) = (P : Int) := sup_eq_left.mpr (by omega)
  have hI : ((P : Int) ⊓ ((records.length - s : Nat) : Int)) = (P : Int) :=
    inf_eq_left.mpr (by omega)
  have hG : ¬((K : Int) ≤ (s : Int) + (P : Int)) := by omega
  unfold scrapeStep
  simp [pyTruthyInt, honestApi, currentBatchSize, hmin, hA, hB, hC, hD, hE, hF,
    hS, hI, hG, Int.toNat_natCast, save_to_database_saved, show K ≠ 0 by omega,
    show P ≠ 0 by omega]

theorem scrapeStep_honest_max_last (records : List RawProject) (rng : Nat → String)
    (P delay K s : Nat) (db : DB) (rc req sl : Nat)
    (hP1 : 1 ≤ P) (hP15 : P ≤ 15) (hs : s < K) (hle : K ≤ s + P)
    (hKN : K ≤ records.length) :
    scrapeStep (honestApi records).page rng ⟨P, delay, some (K : Int)⟩
        ⟨s, s, db, rc, req, sl⟩ =
      (⟨K, K,
        (save_to_database db ((records.drop s).take (K - s)) rng rc).db,
        (save_to_database db ((records.drop s).take (K - s)) rng rc).rc,
        req + 1, sl⟩, false) := by
  have hmin : min P 15 = P := Nat.min_eq_left hP15
  have hlen : ((records.drop s).take (K - s)).length = K - s := by
    rw [List.length_take, List.length_drop]; omega
  have hne : (records.drop s).take (K - s) ≠ [] := by
    intro hcon; rw [hcon] at hlen; simp at hlen; omega
  have hK0 : K ≠ 0 := by omega
  have hA : ¬(K ≤ s) := by omega
  rcases Nat.lt_or_ge K (s + P) with hshr | heq
  · -- shrink branch: current_batch_size becomes K - s
    have hcbs : currentBatchSize ⟨P, delay, some (K : Int)⟩ s = (K : Int) - s := by
      simp [currentBatchSize, pyTruthyInt, hK0, hmin,
        show ((K : Int) < (s : Int) + (P : Int)) from by omega]
    have htn : ((K : Int) - s).toNat = K - s := by omega
    unfold scrapeStep
    simp [pyTruthyInt, honestApi, hcbs, htn, hne, hlen,
      save_to_database_saved, hK0, hmin, hA,
      show ((K : Int) ≤ (s : Int) + ((K - s : Nat) : Int)) from by omega,
      show s + (K - s) = K from by omega]
  · -- no shrink: K = s + P exactly, so the full page reaches the limit
    have hB : ¬((K : Int) < (s : Int) + (P : Int)) := by omega
    have hC : ¬((P : Int) ≤ 0) := by omega
    have hD : ¬(records.length ≤ s) := by omega
    have hE : ¬(((records.length - s : Nat) : Int) < (P : Int)) := by omega
    have hF : min P (records.length - s) = P := Nat.min_eq_left (by omega)
    have hS : ((P : Int) ⊔ 0) = (P : Int) := sup_eq_left.mpr (by omega)
    have hI : ((P : Int) ⊓ ((records.length - s : Nat) : Int)) = (P : Int) :=
      inf_eq_left.mpr (by omega)
    have hG : ((K : Int) ≤ (s : Int) + (P : Int)) := by omega
    have hKs : K - s = P := by omega
    have hsum : s + P = K := by omega
    unfold scrapeStep
    simp [pyTruthyInt, honestApi, currentBatchSize, hmin, hA, hB, hC, hD, hE, hF,
      hS, hI, hG, hKs, hsum, Int.toNat_natCast, save_to_database_saved, hK0,
      show P ≠ 0 from by omega]

/-- Behaviour of the pagination loop against the honest API with a positive
configured maximum `K ≤ N`, from a reachable state at offset `s < K`: the
loop stops with exactly `K` records saved, having fetched precisely the
window `[s, K)`. -/
theorem scrapeLoop_honest_max (records : List RawProject) (rng : Nat → String)
    (P delay K : Nat) (hP1 : 1 ≤ P) (hP15 : P ≤ 15) (hKN : K ≤ records.length) :
    ∀ (fuel s : Nat) (db : DB) (rc req sl : Nat), s < K →
      (K - s + P - 1) / P ≤ fuel →
      scrapeLoop (honestApi records).page rng ⟨P, delay, some (K : Int)⟩ fuel
          ⟨s, s, db, rc, req, sl⟩ =
        some ⟨K, K,
          (save_to_database db ((records.drop s).take (K - s)) rng rc).db,
          (save_to_database db ((records.drop s).take (K - s)) rng rc).rc,
          req + (K - s + P - 1) / P,
          sl + delay * ((K - s + P - 1) / P - 1)⟩ := by
  intro fuel
  induction fuel with
  | zero =>
    intro s db rc req sl hs hf
    exfalso
    have h1 : P ≤ K - s + P - 1 := by omega
    have := Nat.div_le_div_right (c := P) h1
    rw [Nat.div_self (by omega : 0 < P)] at this
    omega
  | succ fuel ih =>
    intro s db rc req sl hs hf
    rcases Nat.lt_or_ge (s + P) K with hsP | hge
    · -- a full page of `P` records, limit not yet reached
      have hdiv : (K - s + P - 1) / P = (K - (s + P) + P - 1) / P + 1 := by
        have h2 : K - s + P - 1 = (K - (s + P) + P - 1) + P := by omega
        rw [h2, Nat.add_div_right _ (by omega : 0 < P)]
      have hsplit : (records.drop s).take (K - s) =
          (records.drop s).take P ++ (records.drop (s + P)).take (K - (s + P)) := by
        have h3 : K - s = P + (K - (s + P)) := by omega
        rw [h3, List.take_add, List.drop_drop]
      have hge1 : 1 ≤ (K - (s + P) + P - 1) / P := by
        have h4 : P ≤ K - (s + P) + P - 1 := by omega
        have h5 := Nat.div_le_div_right (c := P) h4
        rwa [Nat.div_self (by omega : 0 < P)] at h5
      rw [scrapeLoop_cont _ _ _ _ _ _
        (scrapeStep_honest_max_full records rng P delay K s db rc req sl
          hP1 hP15 hsP hKN),
        ih (s + P) (save_to_database db ((records.drop s).take P) rng rc).db
          (save_to_database db ((records.drop s).take P) rng rc).rc
          (req + 1) (sl + delay) (by omega) (by omega),
        hdiv, hsplit]
      have hsave := save_to_database_append ((records.drop s).take P)
        ((records.drop (s + P)).take (K - (s + P))) db rng rc
      simp only [hsave, Option.some.injEq, LoopState.mk.injEq, Nat.add_sub_cancel]
      refine ⟨trivial, trivial, trivial, trivial, by ring, ?_⟩
      have h7 : (K - (s + P) + P - 1) / P = ((K - (s + P) + P - 1) / P - 1) + 1 := by
        omega
      conv_rhs => rw [h7]
      ring
    · -- final page: the limit is reached on this iteration
      have hdiv : (K - s + P - 1) / P = 1 := by
        have h6 : K - s + P - 1 = (K - s - 1) + P := by omega
        rw [h6, Nat.add_div_right _ (by omega : 0 < P), Nat.div_eq_of_lt (by omega)]
      rw [scrapeLoop_break _ _ _ _ _ _
        (scrapeStep_honest_max_last records rng P delay K s db rc req sl
          hP1 hP15 hs hge hKN), hdiv]
      simp

end TDLRScraper

open TDLRScraper

namespace Ex

/-- Deterministic stand-in for the random-uuid stream in concrete examples. -/
def rngEx : Nat → String := fun n => if n = 0 then "a" else "b"

/-- An API oracle whose every paging request raises an exception. -/
def apiExn : Nat → Nat → Nat → Resp := fun _ _ _ => Resp.exn

/-- An API oracle whose every paging request completes with HTTP status 500. -/
def apiErr : Nat → Nat → Nat → Resp := fun _ _ _ => Resp.httpErr 500

/-- A concrete record with a source-provided identifier (distinct per index). -/
def recEx (i : Nat) : RawProject :=
  { projectId := some (String.mk (List.replicate (i + 1) 'p')) }

/-- A concrete dataset of `n` records with distinct source identifiers. -/
def recsEx (n : Nat) : List RawProject := (List.range n).map recEx

end Ex

/-- C1: the claim states the run issues exactly `ceil(N/P)` paging requests.
This fails whenever `P` divides `N`: with `N = 1` record and page length
`P = 1`, the run persists 1 record but issues 2 paging requests (the second
returns an empty page and is how the loop detects the end of data), while
`ceil(1/1) = 1`. -/
theorem C1_counterexample :
    (scrape_all_projects (honestApi (Ex.recsEx 1)) Ex.rngEx ⟨1, 1, none⟩
        init_database 0 9).map (fun st => (st.totalSaved, st.requests)) =
      some (1, 2) ∧ (1 + 1 - 1) / 1 = 1 ∧ (2 : Nat) ≠ 1 := by decide

/-- C1 (amended): for a simulated API holding exactly `N` records and page
length `P` with `1 ≤ P ≤ 15` and no maximum configured, the run persists
exactly `N` records and issues exactly `N / P + 1` paging requests — which
is `ceil(N/P)` when `P` does not divide `N`, and one more (a final empty
page) when it does.  The final database is exactly the one obtained by
upserting all `N` records in order. -/
theorem C1_pagination (records : List RawProject) (rng : Nat → String)
    (P delay rc fuel : Nat) (hP1 : 1 ≤ P) (hP15 : P ≤ 15)
    (hfuel : records.length / P < fuel) :
    ∃ st, scrape_all_projects (honestApi records) rng ⟨P, delay, none⟩
        init_database rc fuel = some st ∧
      st.totalSaved = records.length ∧
      st.requests = records.length / P + 1 ∧
      st.db = (save_to_database init_database records rng rc).db := by
  have h := scrapeLoop_honest records rng P delay hP1 hP15 fuel 0 init_database rc 0 0
    (Nat.zero_le _) (by simpa using hfuel)
  simp only [Nat.sub_zero, List.drop_zero, Nat.zero_add] at h
  exact ⟨_, h, rfl, rfl, rfl⟩

/-- Witness for C1 (amended) at `N = 3`, `P = 2`: 3 records saved and
`3 / 2 + 1 = 2` paging requests. -/
theorem C1_pagination_witness :
    ∃ st, scrape_all_projects (honestApi (Ex.recsEx 3)) Ex.rngEx ⟨2, 1, none⟩
        init_database 0 9 = some st ∧
      st.totalSaved = (Ex.recsEx 3).length ∧
      st.requests = (Ex.recsEx 3).length / 2 + 1 ∧
      st.db = (save_to_database init_database (Ex.recsEx 3) Ex.rngEx 0).db :=
  C1_pagination (Ex.recsEx 3) Ex.rngEx 2 1 0 9 (by decide) (by decide) (by decide)

/-- C5: with a configured maximum `0 < K < N` over a simulated API holding
`N` records, the run stops after persisting exactly `K` records (the final
page length is shrunk to `K - total_saved`), and the database holds exactly
the upserts of the first `K` records. -/
theorem C5_max_records (records : List RawProject) (rng : Nat → String)
    (K P delay rc fuel : Nat) (hK0 : 0 < K) (hKN : K < records.length)
    (hP1 : 1 ≤ P) (hP15 : P ≤ 15) (hfuel : (K + P - 1) / P ≤ fuel) :
    ∃ st, scrape_all_projects (honestApi records) rng ⟨P, delay, some (K : Int)⟩
        init_database rc fuel = some st ∧
      st.totalSaved = K ∧
      st.db = (save_to_database init_database (records.take K) rng rc).db := by
  have h := scrapeLoop_honest_max records rng P delay K hP1 hP15 (le_of_lt hKN)
    fuel 0 init_database rc 0 0 hK0 (by simpa using hfuel)
  simp only [Nat.sub_zero, List.drop_zero, Nat.zero_add] at h
  exact ⟨_, h, rfl, rfl⟩

/-- Witness for C5 at `N = 5`, `K = 3`, `P = 2`. -/
theorem C5_max_records_witness :
    ∃ st, scrape_all_projects (honestApi (Ex.recsEx 5)) Ex.rngEx
        ⟨2, 1, some ((3 : Nat) : Int)⟩ init_database 0 9 = some st ∧
      st.totalSaved = 3 ∧
      st.db = (save_to_database init_database ((Ex.recsEx 5).take 3) Ex.rngEx 0).db :=
  C5_max_records (Ex.recsEx 5) Ex.rngEx 3 2 1 0 9 (by decide) (by decide)
    (by decide) (by decide) (by decide)

/-- Inside the loop, if the top-of-loop limit check does not break, then
neither does the `current_batch_size <= 0` check: when a shrink happens the
shrunk size `max_records - total_saved` is positive. -/
theorem scrapeStep_guard2 (cfg : ScrapeCfg) (st : LoopState)
    (hguard : ¬(pyTruthyInt cfg.maxRecords ∧
      (st.totalSaved : Int) ≥ cfg.maxRecords.getD 0)) :
    ¬((pyTruthyInt cfg.maxRecords ∧
        (st.totalSaved : Int) + (min cfg.batchSize 15 : Nat) > cfg.maxRecords.getD 0) ∧
      currentBatchSize cfg st.totalSaved ≤ 0) := by
  rintro ⟨⟨ht, hgt⟩, hle⟩
  rw [currentBatchSize, if_pos ⟨ht, hgt⟩] at hle
  exact hguard ⟨ht, by omega⟩

/-- C6: a paging request inside the loop that raises an exception does not
abort the run: whatever the configured batch size, the loop advances `start`
by the fixed default page size 15, sleeps for the configured delay, saves
nothing, and retries from the new offset. -/
theorem C6_exception_advances (api : Nat → Nat → Nat → Resp) (rng : Nat → String)
    (cfg : ScrapeCfg) (st : LoopState) (fuel : Nat)
    (hguard : ¬(pyTruthyInt cfg.maxRecords ∧
      (st.totalSaved : Int) ≥ cfg.maxRecords.getD 0))
    (hexn : api st.requests st.start (currentBatchSize cfg st.totalSaved).toNat =
      Resp.exn) :
    scrapeStep api rng cfg st =
      ({ st with start := st.start + 15, requests := st.requests + 1,
                 slept := st.slept + cfg.delay }, true) ∧
    scrapeLoop api rng cfg (fuel + 1) st =
      scrapeLoop api rng cfg fuel
        { st with start := st.start + 15, requests := st.requests + 1,
                  slept := st.slept + cfg.delay } := by
  have hstep : scrapeStep api rng cfg st =
      ({ st with start := st.start + 15, requests := st.requests + 1,
                 slept := st.slept + cfg.delay }, true) := by
    simp only [scrapeStep, if_neg hguard, if_neg (scrapeStep_guard2 cfg st hguard), hexn]
  exact ⟨hstep, scrapeLoop_cont _ _ _ _ _ _ hstep⟩

/-- Witness for C6: a state with `start = 0` advances to `start = 15`
(batch size 4) and the loop goes on. -/
theorem C6_exception_advances_witness :
    scrapeStep Ex.apiExn Ex.rngEx ⟨4, 2, none⟩ ⟨0, 0, init_database, 0, 0, 0⟩ =
      ({ (⟨0, 0, init_database, 0, 0, 0⟩ : LoopState) with
          start := 0 + 15, requests := 0 + 1, slept := 0 + 2 }, true) ∧
    scrapeLoop Ex.apiExn Ex.rngEx ⟨4, 2, none⟩ (3 + 1) ⟨0, 0, init_database, 0, 0, 0⟩ =
      scrapeLoop Ex.apiExn Ex.rngEx ⟨4, 2, none⟩ 3
        { (⟨0, 0, init_database, 0, 0, 0⟩ : LoopState) with
          start := 0 + 15, requests := 0 + 1, slept := 0 + 2 } :=
  C6_exception_advances Ex.apiExn Ex.rngEx ⟨4, 2, none⟩
    ⟨0, 0, init_database, 0, 0, 0⟩ 3 (by decide) (by decide)

/-- C9: a paging request inside the loop that completes with a non-200
status terminates the whole loop at once: the run returns with
`total_saved`, the database, and `start` exactly as they were (in contrast
with the exception case, which continues from `start + 15`). -/
theorem C9_bad_status_stops (api : Nat → Nat → Nat → Resp) (rng : Nat → String)
    (cfg : ScrapeCfg) (st : LoopState) (fuel code : Nat)
    (hguard : ¬(pyTruthyInt cfg.maxRecords ∧
      (st.totalSaved : Int) ≥ cfg.maxRecords.getD 0))
    (herr : api st.requests st.start (currentBatchSize cfg st.totalSaved).toNat =
      Resp.httpErr code) :
    ∃ st2, scrapeLoop api rng cfg (fuel + 1) st = some st2 ∧
      st2.totalSaved = st.totalSaved ∧ st2.db = st.db ∧ st2.start = st.start := by
  have hstep : scrapeStep api rng cfg st =
      ({ st with requests := st.requests + 1 }, false) := by
    simp only [scrapeStep, if_neg hguard, if_neg (scrapeStep_guard2 cfg st hguard), herr]
  exact ⟨_, scrapeLoop_break _ _ _ _ _ _ hstep, rfl, rfl, rfl⟩

/-- Witness for C9: a status-500 paging response stops the loop with the
running totals unchanged. -/
theorem C9_bad_status_stops_witness :
    ∃ st2, scrapeLoop Ex.apiErr Ex.rngEx ⟨4, 2, none⟩ (5 + 1)
        ⟨0, 0, init_database, 0, 0, 0⟩ = some st2 ∧
      st2.totalSaved = (⟨0, 0, init_database, 0, 0, 0⟩ : LoopState).totalSaved ∧
      st2.db = (⟨0, 0, init_database, 0, 0, 0⟩ : LoopState).db ∧
      st2.start = (⟨0, 0, init_database, 0, 0, 0⟩ : LoopState).start :=
  C9_bad_status_stops Ex.apiErr Ex.rngEx ⟨4, 2, none⟩
    ⟨0, 0, init_database, 0, 0, 0⟩ 5 500 (by decide) (by decide)

/-- With `max_records = 0` every truthiness test on the maximum is false, so
one loop iteration behaves exactly as with no maximum configured. -/
theorem scrapeStep_max_zero (api : Nat → Nat → Nat → Resp) (rng : Nat → String)
    (P delay : Nat) (st : LoopState) :
    scrapeStep api rng ⟨P, delay, some 0⟩ st = scrapeStep api rng ⟨P, delay, none⟩ st := by
  simp [scrapeStep, currentBatchSize, pyTruthyInt]

theorem scrapeLoop_max_zero (api : Nat → Nat → Nat → Resp) (rng : Nat → String)
    (P delay : Nat) : ∀ (fuel : Nat) (st : LoopState),
    scrapeLoop api rng ⟨P, delay, some 0⟩ fuel st =
      scrapeLoop api rng ⟨P, delay, none⟩ fuel st := by
  intro fuel
  induction fuel with
  | zero => intro st; rfl
  | succ fuel ih =>
    intro st
    rw [scrapeLoop_succ, scrapeLoop_succ, scrapeStep_max_zero]
    cases h : scrapeStep api rng ⟨P, delay, none⟩ st with
    | mk st2 b =>
      cases b
      · rfl
      · exact ih st2

/-- C10: `max_records = 0` is treated exactly like no configured maximum
(the limit checks test Python truthiness), so the run fetches all `N`
available records instead of stopping immediately with zero persisted. -/
theorem C10_max_zero (records : List RawProject) (rng : Nat → String)
    (P delay rc fuel : Nat) (hP1 : 1 ≤ P) (hP15 : P ≤ 15)
    (hfuel : records.length / P < fuel) :
    scrape_all_projects (honestApi records) rng ⟨P, delay, some 0⟩
        init_database rc fuel =
      scrape_all_projects (honestApi records) rng ⟨P, delay, none⟩
        init_database rc fuel ∧
    ∃ st, scrape_all_projects (honestApi records) rng ⟨P, delay, some 0⟩
        init_database rc fuel = some st ∧
      st.totalSaved = records.length := by
  have heq : scrape_all_projects (honestApi records) rng ⟨P, delay, some 0⟩
      init_database rc fuel =
      scrape_all_projects (honestApi records) rng ⟨P, delay, none⟩
      init_database rc fuel :=
    scrapeLoop_max_zero (honestApi records).page rng P delay fuel _
  have h := scrapeLoop_honest records rng P delay hP1 hP15 fuel 0 init_database rc 0 0
    (Nat.zero_le _) (by simpa using hfuel)
  simp only [Nat.sub_zero, List.drop_zero, Nat.zero_add] at h
  exact ⟨heq, _, heq.trans h, rfl⟩

/-- Witness for C10 at `N = 3`, `P = 2`: with `max_records = 0` all 3
records are fetched. -/
theorem C10_max_zero_witness :
    scrape_all_projects (honestApi (Ex.recsEx 3)) Ex.rngEx ⟨2, 1, some 0⟩
        init_database 0 9 =
      scrape_all_projects (honestApi (Ex.recsEx 3)) Ex.rngEx ⟨2, 1, none⟩
        init_database 0 9 ∧
    ∃ st, scrape_all_projects (honestApi (Ex.recsEx 3)) Ex.rngEx ⟨2, 1, some 0⟩
        init_database 0 9 = some st ∧
      st.totalSaved = (Ex.recsEx 3).length :=
  C10_max_zero (Ex.recsEx 3) Ex.rngEx 2 1 0 9 (by decide) (by decide) (by decide)

/-- The three default searchable columns of `search_projects`. -/
inductive SearchField
  | project_number
  | project_name
  | facility_name
deriving DecidableEq, Repr

/-- The value a search condition reads from a row for a given field. -/
def fieldValue (r : Row) : SearchField → Option String
  | SearchField.project_number => r.project_number
  | SearchField.project_name => r.project_name
  | SearchField.facility_name => r.facility_name

/-- The default `search_fields` list. -/
def defaultFields : List SearchField :=
  [SearchField.project_number, SearchField.project_name, SearchField.facility_name]

/-- SQLite `LIKE` compares characters case-insensitively for ASCII. -/
def likeCharEq (p c : Char) : Bool := p.toLower == c.toLower

/-- SQLite `LIKE` pattern matching over character lists: `%` matches any
(possibly empty) sequence (equivalently, the rest of the pattern must match
some suffix of the subject), `_` matches exactly one character, anything
else matches itself up to ASCII case. -/
def likeMatch : List Char → List Char → Bool
  | [], s => s.isEmpty
  | p :: ps, s =>
    if p = '%' then
      s.tails.any (fun t => likeMatch ps t)
    else
      match s with
      | [] => false
      | c :: cs => (p = '_' || likeCharEq p c) && likeMatch ps cs

/-- `value LIKE pattern` for strings. -/
def sqlLike (v pattern : String) : Bool := likeMatch pattern.data v.data

/-- The `WHERE` disjunction built by `search_projects`: for each configured
field, an exact pattern and a contains pattern (`%term%`); a `NULL` column
value satisfies no `LIKE` condition. -/
def rowMatches (term : String) (fields : List SearchField) (r : Row) : Bool :=
  fields.any fun f =>
    match fieldValue r f with
    | none => false
    | some v => sqlLike v term || sqlLike v ("%" ++ term ++ "%")

/-- Comparison used by `ORDER BY date_scraped DESC`. -/
def tsGE (a b : Row) : Prop := b.date_scraped ≤ a.date_scraped

instance : DecidableRel tsGE := fun a b => Nat.decLe b.date_scraped a.date_scraped

instance : IsTotal Row tsGE :=
  ⟨fun a b => le_total b.date_scraped a.date_scraped⟩

instance : IsTrans Row tsGE :=
  ⟨fun _ _ _ hab hbc => le_trans hbc hab⟩

namespace ProjectSearcher

/-- `search_projects`: select the rows satisfying the `LIKE` disjunction,
order them by ingestion timestamp descending, and return at most 100.  (The
Python function also returns the column-name list, which carries no row
data and is omitted.) -/
def search_projects (db : DB) (term : String) (fields : List SearchField) : List Row :=
  (List.insertionSort tsGE (db.rows.filter (rowMatches term fields))).take 100

end ProjectSearcher

/-! Facts about `LIKE` pattern matching needed for the search claims. -/

theorem likeMatch_nil (s : List Char) : likeMatch [] s = s.isEmpty := rfl

theorem likeMatch_percent_nil (ps : List Char) :
    likeMatch ('%' :: ps) [] = likeMatch ps [] := by
  simp [likeMatch]

theorem likeMatch_percent_cons (ps : List Char) (c : Char) (cs : List Char) :
    likeMatch ('%' :: ps) (c :: cs) =
      (likeMatch ps (c :: cs) || likeMatch ('%' :: ps) cs) := by
  simp [likeMatch, List.tails_cons]

theorem likeMatch_char_nil (p : Char) (ps : List Char) (hp : p ≠ '%') :
    likeMatch (p :: ps) [] = false := by
  rw [likeMatch]
  simp [hp]

theorem likeMatch_char_cons (p : Char) (ps : List Char) (c : Char) (cs : List Char)
    (hp : p ≠ '%') :
    likeMatch (p :: ps) (c :: cs) =
      ((p = '_' || likeCharEq p c) && likeMatch ps cs) := by
  rw [likeMatch]
  simp [hp]

theorem likeMatch_percent_weaken (ps s : List Char) (h : likeMatch ps s = true) :
    likeMatch ('%' :: ps) s = true := by
  cases s with
  | nil => rw [likeMatch_percent_nil]; exact h
  | cons c cs => rw [likeMatch_percent_cons, h]; rfl

/-- A leading `%` absorbs any prefix of the subject string. -/
theorem likeMatch_percent_prefix (ps : List Char) :
    ∀ (t s : List Char), likeMatch ps s = true →
      likeMatch ('%' :: ps) (t ++ s) = true := by
  intro t
  induction t with
  | nil => intro s h; exact likeMatch_percent_weaken ps s h
  | cons c t iht =>
    intro s h
    rw [List.cons_append, likeMatch_percent_cons, iht s h]
    simp

/-- A lone `%` matches any string. -/
theorem likeMatch_percent_any (s : List Char) : likeMatch ['%'] s = true := by
  have h0 : likeMatch ([] : List Char) [] = true := by rw [likeMatch_nil]; rfl
  have h := likeMatch_percent_prefix [] s [] h0
  simpa using h

/-- `LIKE` matches are closed under concatenation of pattern and subject. -/
theorem likeMatch_append (p2 s2 : List Char) (h2 : likeMatch p2 s2 = true) :
    ∀ (p1 s1 : List Char), likeMatch p1 s1 = true →
      likeMatch (p1 ++ p2) (s1 ++ s2) = true := by
  intro p1
  induction p1 with
  | nil =>
    intro s1 h1
    rw [likeMatch_nil] at h1
    rw [List.isEmpty_iff] at h1
    subst h1
    simpa using h2
  | cons p ps ih =>
    by_cases hp : p = '%'
    · subst hp
      intro s1
      induction s1 with
      | nil =>
        intro h1
        rw [likeMatch_percent_nil] at h1
        have h3 := ih [] h1
        rw [List.nil_append] at h3
        rw [List.cons_append, List.nil_append]
        exact likeMatch_percent_weaken _ _ h3
      | cons c cs ihs =>
        intro h1
        rw [likeMatch_percent_cons] at h1
        rw [List.cons_append, List.cons_append, likeMatch_percent_cons]
        simp only [Bool.or_eq_true] at h1
        rcases h1 with h | h
        · have h3 := ih (c :: cs) h
          rw [List.cons_append] at h3
          simp [h3]
        · have h3 := ihs h
          rw [List.cons_append] at h3
          simp [h3]
    · intro s1 h1
      cases s1 with
      | nil => rw [likeMatch_char_nil p ps hp] at h1; exact absurd h1 (by simp)
      | cons c cs =>
        rw [likeMatch_char_cons p ps c cs hp] at h1
        simp only [Bool.and_eq_true] at h1
        rcases h1 with ⟨hc, hrest⟩
        rw [List.cons_append, List.cons_append, likeMatch_char_cons _ _ _ _ hp,
          hc, ih cs hrest]
        rfl

/-- Every string `LIKE`-matches itself used as a pattern. -/
theorem likeMatch_refl (s : List Char) : likeMatch s s = true := by
  induction s with
  | nil => rw [likeMatch_nil]; rfl
  | cons c cs ih =>
    by_cases hc : c = '%'
    · subst hc
      rw [likeMatch_percent_cons]
      have h := likeMatch_percent_weaken cs cs ih
      simp [h]
    · rw [likeMatch_char_cons _ _ _ _ hc]
      simp [ih, likeCharEq]

/-- Exact self-match for the exact pattern of the disjunction. -/
theorem sqlLike_refl (v : String) : sqlLike v v = true := likeMatch_refl v.data

/-- A string containing `term` as a substring matches the `%term%` pattern. -/
theorem sqlLike_contains (v term : String) (pre post : List Char)
    (h : v.data = pre ++ (term.data ++ post)) :
    sqlLike v ("%" ++ term ++ "%") = true := by
  have hpat : ("%" ++ term ++ "%").data = '%' :: (term.data ++ ['%']) := by
    simp [String.data_append]
  rw [sqlLike, hpat, h]
  apply likeMatch_percent_prefix
  exact likeMatch_append ['%'] post (likeMatch_percent_any post) term.data term.data
    (likeMatch_refl term.data)

/-- A matching row of the store is among the search results provided the
whole match set fits under the `LIMIT 100` cap. -/
theorem mem_search_of_matches (db : DB) (term : String) (fields : List SearchField)
    (r : Row) (hr : r ∈ db.rows) (hm : rowMatches term fields r = true)
    (hcount : (db.rows.filter (rowMatches term fields)).length ≤ 100) :
    r ∈ ProjectSearcher.search_projects db term fields := by
  have h1 : r ∈ db.rows.filter (rowMatches term fields) := List.mem_filter.mpr ⟨hr, hm⟩
  have hperm := List.perm_insertionSort tsGE (db.rows.filter (rowMatches term fields))
  rw [ProjectSearcher.search_projects,
    List.take_of_length_le (by rw [hperm.length_eq]; exact hcount)]
  exact hperm.mem_iff.mpr h1

/-- One satisfied `LIKE` disjunct on one configured field makes the row
match. -/
theorem rowMatches_of_field (term : String) (fields : List SearchField)
    (r : Row) (f : SearchField) (hf : f ∈ fields) (v : String)
    (hv : fieldValue r f = some v)
    (h : sqlLike v term = true ∨ sqlLike v ("%" ++ term ++ "%") = true) :
    rowMatches term fields r = true := by
  rw [rowMatches, List.any_eq_true]
  refine ⟨f, hf, ?_⟩
  rw [hv]
  rcases h with h | h <;> simp [h]

namespace Ex

/-- Row `i` of a store of identical-looking records: distinct identifier,
rowid `i + 1`, ingestion timestamp `i`, `project_name = "Austin Tower"`. -/
def austinRow (i : Nat) : Row :=
  { rowid := i + 1
    project_id := String.mk (List.replicate i 'x')
    project_number := none
    project_name := some "Austin Tower"
    project_created_on := none
    project_status := none
    facility_name := none
    city := none
    county := none
    type_of_work := none
    estimated_cost := none
    data_version_id := none
    estimated_start_date := none
    estimated_end_date := none
    date_scraped := i }

/-- A store of 101 rows all matching the term "Austin"; row 0 is the
oldest. -/
def austinDB : DB :=
  { rows := (List.range 101).map austinRow, nextRowid := 102, clock := 101 }

/-- A one-row store used as a search witness. -/
def austinDB1 : DB := { rows := [austinRow 0], nextRowid := 2, clock := 1 }

end Ex

/-- C7: the claim says every store containing a record with
`project_name = "Austin Tower"` returns that record when searching
"Austin".  False: in a store where 101 rows match, the 100-row cap cuts off
the oldest matching row, so the search does not return it. -/
theorem C7_counterexample :
    Ex.austinRow 0 ∈ Ex.austinDB.rows ∧
    (Ex.austinRow 0).project_name = some "Austin Tower" ∧
    Ex.austinRow 0 ∉ ProjectSearcher.search_projects Ex.austinDB "Austin" defaultFields := by
  decide

/-- C7 (amended): provided at most 100 rows match the term, a record with
`project_name = "Austin Tower"` is returned both when searching "Austin"
and when searching "Austin Tower"; search always returns at most 100 rows,
every returned row satisfies the LIKE disjunction over the three default
fields, and a field that equals the term or contains it as a substring
satisfies that disjunction. -/
theorem C7_search (db : DB) (r : Row)
    (hr : r ∈ db.rows) (hname : r.project_name = some "Austin Tower")
    (hc1 : (db.rows.filter (rowMatches "Austin" defaultFields)).length ≤ 100)
    (hc2 : (db.rows.filter (rowMatches "Austin Tower" defaultFields)).length ≤ 100) :
    r ∈ ProjectSearcher.search_projects db "Austin" defaultFields ∧
    r ∈ ProjectSearcher.search_projects db "Austin Tower" defaultFields ∧
    (∀ (db2 : DB) (term : String),
      (ProjectSearcher.search_projects db2 term defaultFields).length ≤ 100) ∧
    (∀ (db2 : DB) (term : String), ∀ x ∈ ProjectSearcher.search_projects db2 term defaultFields,
      rowMatches term defaultFields x = true) ∧
    (∀ (term v : String) (x : Row) (f : SearchField), f ∈ defaultFields →
      fieldValue x f = some v →
      (v = term ∨ ∃ pre post, v.data = pre ++ (term.data ++ post)) →
      rowMatches term defaultFields x = true) := by
  have hgen : ∀ (term v : String) (x : Row) (f : SearchField), f ∈ defaultFields →
      fieldValue x f = some v →
      (v = term ∨ ∃ pre post, v.data = pre ++ (term.data ++ post)) →
      rowMatches term defaultFields x = true := by
    intro term v x f hf hv h
    rcases h with h | ⟨pre, post, h⟩
    · exact rowMatches_of_field term defaultFields x f hf v hv
        (Or.inl (h ▸ sqlLike_refl term))
    · exact rowMatches_of_field term defaultFields x f hf v hv
        (Or.inr (sqlLike_contains v term pre post h))
  have hfname : SearchField.project_name ∈ defaultFields := by
    rw [defaultFields]; simp
  refine ⟨?_, ?_, ?_, ?_, hgen⟩
  · refine mem_search_of_matches db "Austin" defaultFields r hr ?_ hc1
    exact hgen "Austin" "Austin Tower" r SearchField.project_name hfname hname
      (Or.inr ⟨[], " Tower".data, by decide⟩)
  · refine mem_search_of_matches db "Austin Tower" defaultFields r hr ?_ hc2
    exact hgen "Austin Tower" "Austin Tower" r SearchField.project_name hfname hname
      (Or.inl rfl)
  · intro db2 term
    rw [ProjectSearcher.search_projects]
    calc (List.take 100 (List.insertionSort tsGE
            (db2.rows.filter (rowMatches term defaultFields)))).length
        = min 100 (List.insertionSort tsGE
            (db2.rows.filter (rowMatches term defaultFields))).length :=
          List.length_take ..
      _ ≤ 100 := Nat.min_le_left ..
  · intro db2 term x hx
    rw [ProjectSearcher.search_projects] at hx
    have h1 := List.mem_of_mem_take hx
    have h2 := (List.perm_insertionSort tsGE _).mem_iff.mp h1
    exact (List.mem_filter.mp h2).2

/-- Witness for C7 (amended) on a one-row store. -/
theorem C7_search_witness :
    Ex.austinRow 0 ∈ ProjectSearcher.search_projects Ex.austinDB1 "Austin" defaultFields ∧
    Ex.austinRow 0 ∈ ProjectSearcher.search_projects Ex.austinDB1 "Austin Tower" defaultFields ∧
    (∀ (db2 : DB) (term : String),
      (ProjectSearcher.search_projects db2 term defaultFields).length ≤ 100) ∧
    (∀ (db2 : DB) (term : String), ∀ x ∈ ProjectSearcher.search_projects db2 term defaultFields,
      rowMatches term defaultFields x = true) ∧
    (∀ (term v : String) (x : Row) (f : SearchField), f ∈ defaultFields →
      fieldValue x f = some v →
      (v = term ∨ ∃ pre post, v.data = pre ++ (term.data ++ post)) →
      rowMatches term defaultFields x = true) :=
  C7_search Ex.austinDB1 (Ex.austinRow 0) (by decide) (by decide) (by decide) (by decide)

/-- In a list sorted by descending timestamp, a row with a strictly larger
timestamp occurs before one with a smaller timestamp. -/
theorem pairwise_before (l : List Row) (hl : l.Pairwise tsGE) :
    ∀ (a b : Row), a ∈ l → b ∈ l → a.date_scraped < b.date_scraped →
      ∃ l1 l2 l3, l = l1 ++ b :: (l2 ++ a :: l3) := by
  induction l with
  | nil => intro a b ha; exact absurd ha (List.not_mem_nil a)
  | cons x xs ih =>
    intro a b ha hb hab
    rcases List.pairwise_cons.mp hl with ⟨hx, hxs⟩
    by_cases hbx : b = x
    · subst hbx
      have hax : a ≠ b := by intro h; rw [h] at hab; omega
      have ha2 : a ∈ xs := by
        rcases List.mem_cons.mp ha with h | h
        · exact absurd h hax
        · exact h
      rcases List.append_of_mem ha2 with ⟨l2, l3, h23⟩
      exact ⟨[], l2, l3, by rw [h23]; rfl⟩
    · have hb2 : b ∈ xs := by
        rcases List.mem_cons.mp hb with h | h
        · exact absurd h hbx
        · exact h
      have hax : a ≠ x := by
        intro h
        have h2 := hx b hb2
        rw [tsGE] at h2
        rw [h] at hab
        omega
      have ha2 : a ∈ xs := by
        rcases List.mem_cons.mp ha with h | h
        · exact absurd h hax
        · exact h
      rcases ih hxs a b ha2 hb2 hab with ⟨l1, l2, l3, hsplit⟩
      exact ⟨x :: l1, l2, l3, by rw [hsplit]; rfl⟩

/-- Search output is sorted by ingestion timestamp descending. -/
theorem search_sorted (db : DB) (term : String) (fields : List SearchField) :
    (ProjectSearcher.search_projects db term fields).Pairwise tsGE :=
  List.Pairwise.sublist (List.take_sublist 100 _)
    (List.sorted_insertionSort tsGE (db.rows.filter (rowMatches term fields)))

/-- C8: rows returned by search are ordered by ingestion timestamp
descending; in particular, after upserting record `a` (as row `rowA`) and
then record `b` (as row `rowB`, with a distinct identifier), a search whose
match set both rows belong to (and which fits under the 100-row cap)
returns `rowB` strictly before `rowA`. -/
theorem C8_ordering (db0 : DB) (pa pb : String) (a b : RawProject) (term : String)
    (hne : pa ≠ pb)
    (hmA : rowMatches term defaultFields (mkRow db0 pa a) = true)
    (hmB : rowMatches term defaultFields
      (mkRow (insertOrReplace db0 pa a) pb b) = true)
    (hcount : ((insertOrReplace (insertOrReplace db0 pa a) pb b).rows.filter
      (rowMatches term defaultFields)).length ≤ 100) :
    (∀ (db2 : DB) (t2 : String) (fs : List SearchField),
      (ProjectSearcher.search_projects db2 t2 fs).Pairwise tsGE) ∧
    ∃ l1 l2 l3, ProjectSearcher.search_projects
        (insertOrReplace (insertOrReplace db0 pa a) pb b) term defaultFields =
      l1 ++ mkRow (insertOrReplace db0 pa a) pb b ::
        (l2 ++ mkRow db0 pa a :: l3) := by
  refine ⟨fun db2 t2 fs => search_sorted db2 t2 fs, ?_⟩
  set rowA := mkRow db0 pa a with hrowA
  set rowB := mkRow (insertOrReplace db0 pa a) pb b with hrowB
  set db2 := insertOrReplace (insertOrReplace db0 pa a) pb b with hdb2
  have hAmem : rowA ∈ db2.rows := by
    rw [hdb2, insertOrReplace]
    apply List.mem_append_left
    apply List.mem_filter.mpr
    constructor
    · rw [insertOrReplace]
      exact List.mem_append_right _ (List.mem_singleton.mpr rfl)
    · simp [hrowA, mkRow, hne]
  have hBmem : rowB ∈ db2.rows := by
    rw [hdb2, insertOrReplace]
    exact List.mem_append_right _ (List.mem_singleton.mpr rfl)
  have hAin := mem_search_of_matches db2 term defaultFields rowA hAmem hmA hcount
  have hBin := mem_search_of_matches db2 term defaultFields rowB hBmem hmB hcount
  have hts : rowA.date_scraped < rowB.date_scraped := by
    rw [hrowA, hrowB, mkRow, mkRow, insertOrReplace]
    simp
  exact pairwise_before _ (search_sorted db2 term defaultFields) rowA rowB hAin hBin hts

namespace Ex

/-- Two records with distinct identifiers and matching names. -/
def recA : RawProject := { projectId := some "a", projectName := some "x1" }

/-- Second record, see `recA`. -/
def recB : RawProject := { projectId := some "b", projectName := some "x2" }

end Ex

/-- Witness for C8: insert `recA` then `recB` into an empty store and search
"x": `recB`'s row comes back before `recA`'s. -/
theorem C8_ordering_witness :
    (∀ (db2 : DB) (t2 : String) (fs : List SearchField),
      (ProjectSearcher.search_projects db2 t2 fs).Pairwise tsGE) ∧
    ∃ l1 l2 l3, ProjectSearcher.search_projects
        (insertOrReplace (insertOrReplace init_database "a" Ex.recA) "b" Ex.recB)
        "x" defaultFields =
      l1 ++ mkRow (insertOrReplace init_database "a" Ex.recA) "b" Ex.recB ::
        (l2 ++ mkRow init_database "a" Ex.recA :: l3) :=
  C8_ordering init_database "a" "b" Ex.recA Ex.recB "x" (by decide) (by decide)
    (by decide) (by decide)

/-! Upsert invariants (identifier uniqueness, replacement, row counts). -/

theorem map_pid_filter (rows : List Row) (pid : String) :
    (rows.filter (fun r => r.project_id != pid)).map Row.project_id =
      (rows.map Row.project_id).filter (fun s => s != pid) := by
  induction rows with
  | nil => rfl
  | cons r rest ih =>
    simp only [List.filter_cons, List.map_cons]
    cases h : (r.project_id != pid) <;> simp [h, ih]

theorem pids_insertOrReplace (db : DB) (pid : String) (p : RawProject) :
    pids (insertOrReplace db pid p) =
      (pids db).filter (fun s => s != pid) ++ [pid] := by
  simp only [pids, insertOrReplace, List.map_append, map_pid_filter]
  rfl

theorem pids_nodup_insertOrReplace (db : DB) (pid : String) (p : RawProject)
    (h : (pids db).Nodup) : (pids (insertOrReplace db pid p)).Nodup := by
  rw [pids_insertOrReplace]
  apply List.Nodup.append (h.filter _) (List.nodup_singleton pid)
  intro x hx hx2
  rw [List.mem_singleton] at hx2
  subst hx2
  have h2 := (List.mem_filter.mp hx).2
  simp at h2

theorem pids_nodup_save (ps : List RawProject) :
    ∀ (db : DB) (rng : Nat → String) (rc : Nat), (pids db).Nodup →
      (pids (save_to_database db ps rng rc).db).Nodup := by
  induction ps with
  | nil => intro db rng rc h; exact h
  | cons p rest ih =>
    intro db rng rc h
    rw [save_to_database_cons]
    exact ih _ _ _ (pids_nodup_insertOrReplace db _ p h)

theorem length_filter_ne (l : List String) (a : String) :
    (l.filter (fun s => s != a)).length + l.count a = l.length := by
  induction l with
  | nil => rfl
  | cons x xs ih =>
    by_cases h : x = a
    · subst h
      simp [List.filter_cons, List.count_cons]
      omega
    · simp [List.filter_cons, List.count_cons, h, bne_iff_ne.mpr h]
      omega

/-- C3: over any sequence of upserts the `project_id` column stays free of
duplicates; one upsert of an existing identifier keeps the row count, one
upsert of a fresh identifier grows it by exactly one row; the upserted
record's row (with all thirteen payload columns taken from the new record)
is in the store afterwards, and rows under every other identifier are
untouched. -/
theorem C3_upsert_unique (db : DB) (pid : String) (p : RawProject)
    (h : (pids db).Nodup) :
    (pids (insertOrReplace db pid p)).Nodup ∧
    (∀ (ps : List RawProject) (rng : Nat → String) (rc : Nat),
      (pids (save_to_database db ps rng rc).db).Nodup) ∧
    (pid ∈ pids db →
      (insertOrReplace db pid p).rows.length = db.rows.length) ∧
    (pid ∉ pids db →
      (insertOrReplace db pid p).rows.length = db.rows.length + 1) ∧
    mkRow db pid p ∈ (insertOrReplace db pid p).rows ∧
    (∀ r ∈ db.rows, r.project_id ≠ pid → r ∈ (insertOrReplace db pid p).rows) := by
  have hconv : (db.rows.filter (fun r => r.project_id != pid)).length =
      ((pids db).filter (fun s => s != pid)).length := by
    have h2 := congrArg List.length (map_pid_filter db.rows pid)
    rwa [List.length_map] at h2
  have hplen : (pids db).length = db.rows.length := by
    rw [pids, List.length_map]
  have hior : (insertOrReplace db pid p).rows.length =
      (db.rows.filter (fun r => r.project_id != pid)).length + 1 := by
    rw [insertOrReplace]
    simp
  have hlen := length_filter_ne (pids db) pid
  refine ⟨pids_nodup_insertOrReplace db pid p h,
    fun ps rng rc => pids_nodup_save ps db rng rc h, ?_, ?_, ?_, ?_⟩
  · intro hmem
    have hcount : (pids db).count pid = 1 := List.count_eq_one_of_mem h hmem
    omega
  · intro hmem
    have hcount : (pids db).count pid = 0 := List.count_eq_zero.mpr hmem
    omega
  · rw [insertOrReplace]
    exact List.mem_append_right _ (List.mem_singleton.mpr rfl)
  · intro r hr hne
    rw [insertOrReplace]
    exact List.mem_append_left _ (List.mem_filter.mpr ⟨hr, bne_iff_ne.mpr hne⟩)

/-- Witness for C3 on a one-row store with a fresh identifier. -/
theorem C3_upsert_unique_witness :
    (pids (insertOrReplace Ex.austinDB1 "y" Ex.recA)).Nodup ∧
    (∀ (ps : List RawProject) (rng : Nat → String) (rc : Nat),
      (pids (save_to_database Ex.austinDB1 ps rng rc).db).Nodup) ∧
    ("y" ∈ pids Ex.austinDB1 →
      (insertOrReplace Ex.austinDB1 "y" Ex.recA).rows.length =
        Ex.austinDB1.rows.length) ∧
    ("y" ∉ pids Ex.austinDB1 →
      (insertOrReplace Ex.austinDB1 "y" Ex.recA).rows.length =
        Ex.austinDB1.rows.length + 1) ∧
    mkRow Ex.austinDB1 "y" Ex.recA ∈ (insertOrReplace Ex.austinDB1 "y" Ex.recA).rows ∧
    (∀ r ∈ Ex.austinDB1.rows, r.project_id ≠ "y" →
      r ∈ (insertOrReplace Ex.austinDB1 "y" Ex.recA).rows) :=
  C3_upsert_unique Ex.austinDB1 "y" Ex.recA (by decide)

/-- C4: for a record with no (truthy) source identifier and a non-empty
project number, the derived identifier is `uuid5` of the project number
alone — the same on any two ingestions, independent of the random stream
and counter, which are not consumed. -/
theorem C4_deterministic_id (p q : RawProject) (rng1 rng2 : Nat → String)
    (rc1 rc2 : Nat) (hp_id : pyTruthy p.projectId = false)
    (hq_id : pyTruthy q.projectId = false)
    (hp_pn : pyTruthy p.projectNumber = true)
    (hpq : p.projectNumber = q.projectNumber) :
    (derivePid p rng1 rc1).1 = (derivePid q rng2 rc2).1 ∧
    (derivePid p rng1 rc1).1 = uuid5_dns (p.projectNumber.getD "") ∧
    (derivePid p rng1 rc1).2 = rc1 := by
  have hq_pn : pyTruthy q.projectNumber = true := by rw [← hpq]; exact hp_pn
  simp [derivePid, hp_id, hq_id, hp_pn, hq_pn, hpq]

namespace Ex

/-- A record with a project number but no source identifier. -/
def recPN : RawProject := { projectNumber := some "TABS2024-001" }

/-- A record with neither a source identifier nor a project number. -/
def blankRec : RawProject := {}

end Ex

/-- Witness for C4 with two distinct random streams and counters. -/
theorem C4_deterministic_id_witness :
    (derivePid Ex.recPN Ex.rngEx 0).1 = (derivePid Ex.recPN (fun _ => "zzz") 7).1 ∧
    (derivePid Ex.recPN Ex.rngEx 0).1 = uuid5_dns (Ex.recPN.projectNumber.getD "") ∧
    (derivePid Ex.recPN Ex.rngEx 0).2 = 0 :=
  C4_deterministic_id Ex.recPN Ex.recPN Ex.rngEx (fun _ => "zzz") 0 7
    (by decide) (by decide) (by decide) (by decide)

/-- When a record carries a truthy source identifier or project number, its
derived identifier is a function of the record alone and the random counter
is not consumed. -/
theorem derivePid_keyed (p : RawProject)
    (h : pyTruthy p.projectId = true ∨ pyTruthy p.projectNumber = true)
    (rng : Nat → String) (rc : Nat) :
    derivePid p rng rc =
      (if pyTruthy p.projectId then p.projectId.getD ""
       else uuid5_dns (p.projectNumber.getD ""), rc) := by
  rcases h with h | h
  · simp [derivePid, h]
  · by_cases h2 : pyTruthy p.projectId
    · simp [derivePid, h2]
    · simp [derivePid, h2, h]

/-- For a batch of keyed records (identifier or project number present) the
resulting store does not depend on the random stream or counter, and the
counter passes through unchanged. -/
theorem save_keyed_rng_irrelevant (ps : List RawProject)
    (h : ∀ p ∈ ps, pyTruthy p.projectId = true ∨ pyTruthy p.projectNumber = true) :
    ∀ (db : DB) (rng1 rng2 : Nat → String) (rc1 rc2 : Nat),
      (save_to_database db ps rng1 rc1).db = (save_to_database db ps rng2 rc2).db ∧
      (save_to_database db ps rng1 rc1).rc = rc1 := by
  induction ps with
  | nil => intro db rng1 rng2 rc1 rc2; exact ⟨rfl, rfl⟩
  | cons p rest ih =>
    intro db rng1 rng2 rc1 rc2
    have hp := h p (List.mem_cons_self p rest)
    have hrest : ∀ q ∈ rest,
        pyTruthy q.projectId = true ∨ pyTruthy q.projectNumber = true :=
      fun q hq => h q (List.mem_cons_of_mem p hq)
    rw [save_to_database_cons, save_to_database_cons,
      derivePid_keyed p hp rng1 rc1, derivePid_keyed p hp rng2 rc2]
    exact ⟨(ih hrest _ rng1 rng2 _ _).1, (ih hrest _ rng1 rng1 _ 0).2⟩

/-- A full honest-API fetch run: probe, loop to completion, return the
store obtained by upserting all records in order. -/
theorem runFetcher_honest (records : List RawProject) (rng : Nat → String)
    (P delay rc fuel : Nat) (hP1 : 1 ≤ P) (hP15 : P ≤ 15)
    (hfuel : records.length / P < fuel) :
    runFetcher records rng ⟨P, delay, none⟩ rc fuel =
      some ((save_to_database init_database records rng rc).db,
            (save_to_database init_database records rng rc).rc) := by
  have h := scrapeLoop_honest records rng P delay hP1 hP15 fuel 0 init_database rc 0 0
    (Nat.zero_le _) (by simpa using hfuel)
  simp only [Nat.sub_zero, List.drop_zero, Nat.zero_add] at h
  have h2 : scrape_all_projects (honestApi records) rng ⟨P, delay, none⟩
      init_database rc fuel =
      some ⟨records.length, P * (records.length / P),
        (save_to_database init_database records rng rc).db,
        (save_to_database init_database records rng rc).rc,
        records.length / P + 1, delay * (records.length / P)⟩ := h
  rw [runFetcher, h2]
  rfl

/-- C2: the claim says re-running the Fetcher over any unchanged dataset
leaves the store's contents unchanged.  False for a record with neither a
source identifier nor a project number: each run stores it under a fresh
random identifier, so the `project_id` contents differ between runs
(although the row count matches). -/
theorem C2_counterexample :
    (runFetcher [Ex.blankRec] Ex.rngEx ⟨15, 1, none⟩ 0 9).map
      (fun x => (x.1.rows.map Row.project_id, x.2)) = some (["a"], 1) ∧
    (runFetcher [Ex.blankRec] Ex.rngEx ⟨15, 1, none⟩ 1 9).map
      (fun x => (x.1.rows.map Row.project_id, x.2)) = some (["b"], 2) ∧
    ("a" : String) ≠ "b" := by decide

/-- C2 (amended): for datasets in which every record carries a truthy
source identifier or project number, running the Fetcher a second time
(its constructor re-initialises the table, and the re-scrape is
deterministic) reproduces exactly the same store as the first run. -/
theorem C2_idempotent (records : List RawProject) (rng : Nat → String)
    (P delay fuel : Nat) (hP1 : 1 ≤ P) (hP15 : P ≤ 15)
    (hfuel : records.length / P < fuel)
    (hrec : ∀ p ∈ records,
      pyTruthy p.projectId = true ∨ pyTruthy p.projectNumber = true) :
    ∃ db1 rc1 rc2, runFetcher records rng ⟨P, delay, none⟩ 0 fuel = some (db1, rc1) ∧
      runFetcher records rng ⟨P, delay, none⟩ rc1 fuel = some (db1, rc2) := by
  have hkey := save_keyed_rng_irrelevant records hrec
  refine ⟨(save_to_database init_database records rng 0).db,
    (save_to_database init_database records rng 0).rc,
    (save_to_database init_database records rng
      (save_to_database init_database records rng 0).rc).rc,
    runFetcher_honest records rng P delay 0 fuel hP1 hP15 hfuel, ?_⟩
  rw [runFetcher_honest records rng P delay
    (save_to_database init_database records rng 0).rc fuel hP1 hP15 hfuel,
    (hkey init_database rng rng
      (save_to_database init_database records rng 0).rc 0).1]

/-- Witness for C2 (amended) on a two-record keyed dataset. -/
theorem C2_idempotent_witness :
    ∃ db1 rc1 rc2,
      runFetcher (Ex.recsEx 2) Ex.rngEx ⟨15, 1, none⟩ 0 3 = some (db1, rc1) ∧
      runFetcher (Ex.recsEx 2) Ex.rngEx ⟨15, 1, none⟩ rc1 3 = some (db1, rc2) :=
  C2_idempotent (Ex.recsEx 2) Ex.rngEx 15 1 3 (by decide) (by decide) (by decide)
    (by decide)
